import Mathlib

/-!
The confab command-line entry point (`src/confab/cmd/main.go`).

A shallow embedding of the `confab` entry point: the `stringSlice` flag value,
`validCommand`, `printUsageAndExit` and `main`.

* Go strings are Lean `String`s; the flag parser only inspects the ASCII bytes
  `-` and `=`, which in UTF-8 text occur exactly at the characters `-` and `=`.
* The package-level variables written by the flag set are an explicit state
  (`Globals`) threaded through flag parsing.
* Everything outside the file (file-system lookups, the consul API client, the
  controller operations) is an arbitrary outcome supplied by an `Env`.
* A run of `main` is the list of the external calls it performs, in order,
  together with the way the process ends (`os.Exit`, a panic, or a normal
  return).
-/

namespace Confab

/-! ## Data model -/

/-- A non-nil Go `error` value; `Option GoError` is a Go `error`, with `none` for `nil`. -/
structure GoError where
  msg : String
  deriving DecidableEq, Repr

/-- Line 17: `type stringSlice []string`. -/
abbrev stringSlice := List String

/-- Lines 23-27: `func (ss *stringSlice) Set(value string) error`.
The receiver is passed in and the updated slice is returned with the error. -/
def stringSlice.Set (ss : stringSlice) (value : String) : stringSlice × Option GoError :=
  (ss ++ [value], none)

/-- Lines 29-36: the package-level variables bound to the flags. -/
structure Globals where
  nodeType : String
  agentPath : String
  consulConfigDir : String
  pidFile : String
  expectedMembers : stringSlice
  encryptionKeys : stringSlice
  deriving DecidableEq, Repr

/-- The zero values of the package-level variables; lines 43-46 register the
string flags with the default value `""`, which stores `""` again. -/
def Globals.zero : Globals :=
  ⟨"", "", "", "", [], []⟩

/-- The six flags registered on `flagSet` (lines 43-48), by the variable they write. -/
inductive FlagVar
  | nodeType
  | agentPath
  | consulConfigDir
  | pidFile
  | expectedMembers
  | encryptionKeys
  deriving DecidableEq, Repr

/-- The map `flagSet.formal`: flag name to registered flag (lines 43-48). -/
def lookupFormal (name : String) : Option FlagVar :=
  if name = "node-type" then some FlagVar.nodeType
  else if name = "agent-path" then some FlagVar.agentPath
  else if name = "consul-config-dir" then some FlagVar.consulConfigDir
  else if name = "pid-file" then some FlagVar.pidFile
  else if name = "expected-member" then some FlagVar.expectedMembers
  else if name = "encryption-key" then some FlagVar.encryptionKeys
  else none

/-- The call `flag.Value.Set(value)` of a registered flag: a string flag stores
the value and returns `nil`; the two `stringSlice` flags call `stringSlice.Set`. -/
def FlagVar.Set (g : Globals) (value : String) : FlagVar → Globals × Option GoError
  | FlagVar.nodeType => ({ g with nodeType := value }, none)
  | FlagVar.agentPath => ({ g with agentPath := value }, none)
  | FlagVar.consulConfigDir => ({ g with consulConfigDir := value }, none)
  | FlagVar.pidFile => ({ g with pidFile := value }, none)
  | FlagVar.expectedMembers =>
    ({ g with expectedMembers := (stringSlice.Set g.expectedMembers value).1 },
      (stringSlice.Set g.expectedMembers value).2)
  | FlagVar.encryptionKeys =>
    ({ g with encryptionKeys := (stringSlice.Set g.encryptionKeys value).1 },
      (stringSlice.Set g.encryptionKeys value).2)

/-! ## The standard library flag parser, for the flags of `main`

`flagSet.Parse` (line 59) is Go's `flag.FlagSet.Parse` on a set created with
`flag.ContinueOnError`: it returns the first error instead of exiting. None of
the six flags is a boolean flag, so every flag takes a value. -/

/-- The errors `FlagSet.Parse` can return. -/
inductive ParseError
  /-- Text "bad flag syntax: %s". -/
  | badSyntax (arg : String)
  /-- The value `flag.ErrHelp`, for an undefined `-h` or `-help`. -/
  | errHelp
  /-- Text "flag provided but not defined: -%s". -/
  | notDefined (name : String)
  /-- Text "flag needs an argument: -%s". -/
  | needsArgument (name : String)
  /-- Text "invalid value %q for flag -%s: %v". -/
  | invalidValue (value name : String) (err : GoError)
  deriving DecidableEq, Repr

/-- What `parseOne` makes of the first remaining argument. -/
inductive ArgShape
  /-- Not a flag: `len(s) < 2 || s[0] != '-'`; parsing stops. -/
  | nonFlag
  /-- The argument `--`, which terminates the flags. -/
  | terminator
  /-- The name is empty or starts with `-` or `=`. -/
  | badSyntax
  /-- A flag, with the value of the `name=value` form when there is one. -/
  | flag (name : String) (value : Option String)
  deriving DecidableEq, Repr

/-- The search `for i := 1; i < len(name); i++ { if name[i] == '=' ... }` on the
characters after the first one: the text before and after the first `=`. -/
def splitAtEq : List Char → Option (List Char × List Char)
  | [] => none
  | c :: cs =>
    if c = '=' then some ([], cs)
    else
      match splitAtEq cs with
      | some (n, v) => some (c :: n, v)
      | none => none

/-- The part of `parseOne` that works on `name := s[numMinuses:]`. -/
def flagName : List Char → ArgShape
  | [] => ArgShape.badSyntax
  | c :: cs =>
    if c = '-' ∨ c = '=' then ArgShape.badSyntax
    else
      match splitAtEq cs with
      | some (n, v) => ArgShape.flag (String.mk (c :: n)) (some (String.mk v))
      | none => ArgShape.flag (String.mk (c :: cs)) none

/-- The head of `parseOne`: strip one or two leading minus signs. -/
def argShape (s : String) : ArgShape :=
  match s.data with
  | c0 :: c1 :: cs =>
    if c0 ≠ '-' then ArgShape.nonFlag
    else if c1 = '-' then
      (if cs = [] then ArgShape.terminator else flagName cs)
    else flagName (c1 :: cs)
  | _ => ArgShape.nonFlag

/-- The loop of `FlagSet.Parse` around `parseOne`, under `ContinueOnError`:
the variables as the parser leaves them, and the error it returns. -/
def Parse : Globals → List String → Globals × Option ParseError
  | g, [] => (g, none)
  | g, s :: rest =>
    match argShape s with
    | ArgShape.nonFlag => (g, none)
    | ArgShape.terminator => (g, none)
    | ArgShape.badSyntax => (g, some (ParseError.badSyntax s))
    | ArgShape.flag name value =>
      match lookupFormal name with
      | none =>
        if name = "help" ∨ name = "h" then (g, some ParseError.errHelp)
        else (g, some (ParseError.notDefined name))
      | some fv =>
        match value, rest with
        | some v, rest1 =>
          match fv.Set g v with
          | (g1, none) => Parse g1 rest1
          | (g1, some err) => (g1, some (ParseError.invalidValue v name err))
        | none, v :: rest1 =>
          match fv.Set g v with
          | (g1, none) => Parse g1 rest1
          | (g1, some err) => (g1, some (ParseError.invalidValue v name err))
        | none, [] => (g, some (ParseError.needsArgument name))

/-! ## The collaborators -/

/-- Lines 79-85: `confab.AgentRunner` (the two output streams are fixed). -/
structure AgentRunner where
  Path : String
  PIDFile : String
  ConfigDir : String
  deriving DecidableEq, Repr

/-- The client returned by `agent.NewRPCClient(address)`. -/
structure RPCClient where
  address : String
  deriving DecidableEq, Repr

/-- Lines 91-95: `confab.AgentClient` (the API agent handle is fixed). -/
structure AgentClient where
  ExpectedMembers : List String
  ConsulRPCClient : Option RPCClient
  deriving DecidableEq, Repr

/-- Lines 97-106: `confab.Controller`, as the controller operations see it.
`SyncRetryDelay` is in nanoseconds; the clock and the nil logger are fixed. -/
structure Controller where
  Runner : AgentRunner
  Client : AgentClient
  MaxRetries : Nat
  SyncRetryDelay : Nat
  EncryptKeys : List String
  SSLDisabled : Bool
  deriving DecidableEq, Repr

/-- The outcomes of the calls `main` makes outside of this file. -/
structure Env where
  /-- The call `exec.LookPath(file)`: the resolved path, or `none` for an error. -/
  LookPath : String → Option String
  /-- The error of `os.Stat(name)`. -/
  Stat : String → Option GoError
  /-- The error of `api.NewClient(api.DefaultConfig())`. -/
  NewClient : Option GoError
  /-- The error of `controller.BootAgent()`. -/
  BootAgent : Controller → Option GoError
  /-- The error of `agent.NewRPCClient(address)`. -/
  NewRPCClient : String → Option GoError
  /-- The error of `controller.ConfigureServer()`. -/
  ConfigureServer : Controller → Option GoError

/-- The message handed to `printUsageAndExit`. -/
inductive UsageMessage
  /-- Line 51: "invalid number of arguments". -/
  | invalidNumberOfArguments
  /-- Line 56: "invalid COMMAND %q". -/
  | invalidCommand (command : String)
  /-- Line 63: "\"agent-path\" %q cannot be found". -/
  | agentPathNotFound (agentPath : String)
  /-- Line 67: "\"pid-file\" cannot be empty". -/
  | pidFileEmpty
  /-- Line 72: "\"consul-config-dir\" %q could not be found". -/
  | configDirNotFound (consulConfigDir : String)
  /-- Line 76: "at least one \"expected-member\" must be provided". -/
  | noExpectedMember
  deriving DecidableEq, Repr

/-- One observable step of a run, with the outcome the environment gave it. -/
inductive Event
  | flagParse (arguments : List String) (err : Option ParseError)
  | LookPath (file : String) (path : Option String)
  | Stat (name : String) (err : Option GoError)
  | NewClient (err : Option GoError)
  | BootAgent (c : Controller) (err : Option GoError)
  | NewRPCClient (address : String) (err : Option GoError)
  | ConfigureServer (c : Controller) (err : Option GoError)
  | printUsage (message : UsageMessage)
  deriving DecidableEq, Repr

/-- The value given to `panic`. -/
inductive PanicValue
  | error (err : GoError)
  | text (s : String)
  deriving DecidableEq, Repr

/-- How the process ends. -/
inductive Outcome
  | exit (code : Nat)
  | panic (v : PanicValue)
  | returned
  deriving DecidableEq, Repr

/-- A run of `main`: the external calls in order, and the way it ends. -/
structure Run where
  trace : List Event
  outcome : Outcome
  deriving DecidableEq, Repr

/-- The run `r` preceded by the events `es`. -/
def Run.after (es : List Event) (r : Run) : Run :=
  ⟨es ++ r.trace, r.outcome⟩

/-! ## The functions of `main.go` -/

/-- Lines 146-154: `validCommand`. -/
def validCommand (command : String) : Bool :=
  ["start", "stop"].any (fun c => decide (command = c))

/-- Lines 136-144: `printUsageAndExit` prints the message and the usage text
to stderr and calls `os.Exit(1)`. -/
def printUsageAndExit (message : UsageMessage) : Run :=
  ⟨[Event.printUsage message], Outcome.exit 1⟩

/-- Lines 79-106: the controller `main` builds from the variables and the
resolved agent path; `rpc` is the field `agentClient.ConsulRPCClient`, which
the controller reads through its pointer to `agentClient`. -/
def controllerOf (g : Globals) (path : String) (rpc : Option RPCClient) : Controller :=
  { Runner := { Path := path, PIDFile := g.pidFile, ConfigDir := g.consulConfigDir }
    Client := { ExpectedMembers := g.expectedMembers, ConsulRPCClient := rpc }
    MaxRetries := 10
    SyncRetryDelay := 1 * 1000000000
    EncryptKeys := g.encryptionKeys
    SSLDisabled := false }

/-- Lines 108-133: the `switch nodeType` statement. -/
def switchNodeType (env : Env) (g : Globals) (path : String) : Run :=
  if g.nodeType = "client" then
    match env.BootAgent (controllerOf g path none) with
    | some err =>
      ⟨[Event.BootAgent (controllerOf g path none) (some err)],
        Outcome.panic (PanicValue.error err)⟩
    | none => ⟨[Event.BootAgent (controllerOf g path none) none], Outcome.returned⟩
  else if g.nodeType = "server" then
    match env.BootAgent (controllerOf g path none) with
    | some err =>
      ⟨[Event.BootAgent (controllerOf g path none) (some err)],
        Outcome.panic (PanicValue.error err)⟩
    | none =>
      Run.after [Event.BootAgent (controllerOf g path none) none] <|
      match env.NewRPCClient "localhost:8400" with
      | some err =>
        ⟨[Event.NewRPCClient "localhost:8400" (some err)],
          Outcome.panic (PanicValue.error err)⟩
      | none =>
        Run.after [Event.NewRPCClient "localhost:8400" none] <|
        match env.ConfigureServer (controllerOf g path (some ⟨"localhost:8400"⟩)) with
        | some err =>
          ⟨[Event.ConfigureServer (controllerOf g path (some ⟨"localhost:8400"⟩)) (some err)],
            Outcome.panic (PanicValue.error err)⟩
        | none =>
          ⟨[Event.ConfigureServer (controllerOf g path (some ⟨"localhost:8400"⟩)) none],
            Outcome.returned⟩
  else ⟨[], Outcome.panic (PanicValue.text "unhandled default case")⟩

/-- Lines 61-133: `main` after `flagSet.Parse`, on the variables `g` it left. -/
def afterParse (env : Env) (g : Globals) : Run :=
  match env.LookPath g.agentPath with
  | none =>
    Run.after [Event.LookPath g.agentPath none]
      (printUsageAndExit (UsageMessage.agentPathNotFound g.agentPath))
  | some path =>
    Run.after [Event.LookPath g.agentPath (some path)] <|
    if g.pidFile.length = 0 then printUsageAndExit UsageMessage.pidFileEmpty
    else
      match env.Stat g.consulConfigDir with
      | some err =>
        Run.after [Event.Stat g.consulConfigDir (some err)]
          (printUsageAndExit (UsageMessage.configDirNotFound g.consulConfigDir))
      | none =>
        Run.after [Event.Stat g.consulConfigDir none] <|
        if g.expectedMembers.length = 0 then printUsageAndExit UsageMessage.noExpectedMember
        else
          match env.NewClient with
          | some err => ⟨[Event.NewClient (some err)], Outcome.panic (PanicValue.error err)⟩
          | none => Run.after [Event.NewClient none] (switchNodeType env g path)

/-- Lines 41-134: `main`, on the argument vector `os.Args`. -/
def main (env : Env) (Args : List String) : Run :=
  match Args with
  | [] => printUsageAndExit UsageMessage.invalidNumberOfArguments
  | [_] => printUsageAndExit UsageMessage.invalidNumberOfArguments
  | _ :: command :: arguments =>
    if !validCommand command then printUsageAndExit (UsageMessage.invalidCommand command)
    else
      Run.after [Event.flagParse arguments (Parse Globals.zero arguments).2]
        (afterParse env (Parse Globals.zero arguments).1)

/-! ## Observations on a run -/

/-- The three operations of the controller. -/
inductive Op
  | BootAgent
  | ConfigureServer
  | StopAgent
  deriving DecidableEq, Repr

/-- The controller operation an event is, if it is one. `main` has no call of
`controller.StopAgent`, so no event stands for it. -/
def Event.op : Event → Option Op
  | Event.BootAgent _ _ => some Op.BootAgent
  | Event.ConfigureServer _ _ => some Op.ConfigureServer
  | _ => none

/-- The controller operations of a trace, in order. -/
def controllerOps (t : List Event) : List Op :=
  t.filterMap Event.op

/-- The controllers on which an operation was invoked, in order. -/
def Event.controller : Event → Option Controller
  | Event.BootAgent c _ => some c
  | Event.ConfigureServer c _ => some c
  | _ => none

/-- An environment in which every call succeeds; the agent path resolves to itself. -/
def Env.allOk : Env :=
  { LookPath := fun file => some file
    Stat := fun _ => none
    NewClient := none
    BootAgent := fun _ => none
    NewRPCClient := fun _ => none
    ConfigureServer := fun _ => none }

/-- The variables as `flagSet.Parse(os.Args[2:])` leaves them (line 59). -/
def parsedGlobals (Args : List String) : Globals :=
  (Parse Globals.zero (Args.drop 2)).1

/-- The six checks of lines 50-77 all pass: there is a command after the
program name, it is a valid command, the agent path resolves, the pid file
path is not empty, the config directory exists, and there is an expected
member. -/
def Validated (env : Env) (Args : List String) : Prop :=
  2 ≤ Args.length ∧
  (∃ command, Args.get? 1 = some command ∧ validCommand command = true) ∧
  (∃ path, env.LookPath (parsedGlobals Args).agentPath = some path) ∧
  (parsedGlobals Args).pidFile ≠ "" ∧
  env.Stat (parsedGlobals Args).consulConfigDir = none ∧
  (parsedGlobals Args).expectedMembers ≠ []

/-- The events of lines 59-77 when every check passes. -/
def validationEvents (Args : List String) (path : String) : List Event :=
  [Event.flagParse (Args.drop 2) (Parse Globals.zero (Args.drop 2)).2,
    Event.LookPath (parsedGlobals Args).agentPath (some path),
    Event.Stat (parsedGlobals Args).consulConfigDir none]

/-- A call outside the file that returned an error; the error of
`flagSet.Parse` is not one, `main` discards it. -/
def Event.failed : Event → Bool
  | Event.LookPath _ path => path.isNone
  | Event.Stat _ err => err.isSome
  | Event.NewClient err => err.isSome
  | Event.BootAgent _ err => err.isSome
  | Event.NewRPCClient _ err => err.isSome
  | Event.ConfigureServer _ err => err.isSome
  | _ => false

/-- The event is a call of `printUsageAndExit`. -/
def Event.isUsage : Event → Bool
  | Event.printUsage _ => true
  | _ => false

/-- The controllers on which an operation was invoked in a trace, in order. -/
def controllers (t : List Event) : List Controller :=
  t.filterMap Event.controller

/-! ## Options as they are written on the command line -/

/-- The name under which a flag is registered (lines 43-48). -/
def FlagVar.name : FlagVar → String
  | FlagVar.nodeType => "node-type"
  | FlagVar.agentPath => "agent-path"
  | FlagVar.consulConfigDir => "consul-config-dir"
  | FlagVar.pidFile => "pid-file"
  | FlagVar.expectedMembers => "expected-member"
  | FlagVar.encryptionKeys => "encryption-key"

/-- An environment in which only `controller.BootAgent` fails. -/
def Env.bootFails : Env :=
  { Env.allOk with BootAgent := fun _ => some ⟨"cluster membership timeout"⟩ }

/-- An environment in which only `api.NewClient` fails. -/
def Env.clientFails : Env :=
  { Env.allOk with NewClient := some ⟨"api client"⟩ }

/-- The options common to the invocations below. -/
def baseOptions : List String :=
  ["-agent-path=/bin/consul", "-pid-file", "/run/consul.pid", "--consul-config-dir=/etc/consul",
    "-expected-member", "10.0.0.1", "-expected-member=10.0.0.2", "-encryption-key", "k1"]

/-- A `start` invocation of a server node. -/
def serverArgs : List String :=
  "confab" :: "start" :: "-node-type=server" :: baseOptions

/-- A `start` invocation of a client node. -/
def clientArgs : List String :=
  "confab" :: "start" :: "-node-type=client" :: baseOptions

/-- A `stop` invocation of a client node. -/
def stopArgs : List String :=
  "confab" :: "stop" :: "-node-type=client" :: baseOptions

/-- A `start` invocation that gives no node type. -/
def noTypeArgs : List String :=
  "confab" :: "start" :: baseOptions

/-- A `start` invocation of a server node that gives no expected member. -/
def noMemberArgs : List String :=
  ["confab", "start", "-node-type=server", "-agent-path=/bin/consul", "-pid-file=/run/consul.pid",
    "-consul-config-dir=/etc/consul"]

theorem trace_after (es : List Event) (r : Run) : (Run.after es r).trace = es ++ r.trace := rfl

theorem outcome_after (es : List Event) (r : Run) : (Run.after es r).outcome = r.outcome := rfl

/-- The seven possible runs of the `switch` statement. -/
theorem switchNodeType_cases (env : Env) (g : Globals) (path : String) :
    (g.nodeType = "client" ∧ ∃ err, env.BootAgent (controllerOf g path none) = some err ∧
      switchNodeType env g path =
        ⟨[Event.BootAgent (controllerOf g path none) (some err)],
          Outcome.panic (PanicValue.error err)⟩) ∨
    (g.nodeType = "client" ∧ env.BootAgent (controllerOf g path none) = none ∧
      switchNodeType env g path =
        ⟨[Event.BootAgent (controllerOf g path none) none], Outcome.returned⟩) ∨
    (g.nodeType = "server" ∧ ∃ err, env.BootAgent (controllerOf g path none) = some err ∧
      switchNodeType env g path =
        ⟨[Event.BootAgent (controllerOf g path none) (some err)],
          Outcome.panic (PanicValue.error err)⟩) ∨
    (g.nodeType = "server" ∧ env.BootAgent (controllerOf g path none) = none ∧
      ∃ err, env.NewRPCClient "localhost:8400" = some err ∧
      switchNodeType env g path =
        ⟨[Event.BootAgent (controllerOf g path none) none,
          Event.NewRPCClient "localhost:8400" (some err)],
          Outcome.panic (PanicValue.error err)⟩) ∨
    (g.nodeType = "server" ∧ env.BootAgent (controllerOf g path none) = none ∧
      env.NewRPCClient "localhost:8400" = none ∧
      ∃ err, env.ConfigureServer (controllerOf g path (some ⟨"localhost:8400"⟩)) = some err ∧
      switchNodeType env g path =
        ⟨[Event.BootAgent (controllerOf g path none) none,
          Event.NewRPCClient "localhost:8400" none,
          Event.ConfigureServer (controllerOf g path (some ⟨"localhost:8400"⟩)) (some err)],
          Outcome.panic (PanicValue.error err)⟩) ∨
    (g.nodeType = "server" ∧ env.BootAgent (controllerOf g path none) = none ∧
      env.NewRPCClient "localhost:8400" = none ∧
      env.ConfigureServer (controllerOf g path (some ⟨"localhost:8400"⟩)) = none ∧
      switchNodeType env g path =
        ⟨[Event.BootAgent (controllerOf g path none) none,
          Event.NewRPCClient "localhost:8400" none,
          Event.ConfigureServer (controllerOf g path (some ⟨"localhost:8400"⟩)) none],
          Outcome.returned⟩) ∨
    (g.nodeType ≠ "client" ∧ g.nodeType ≠ "server" ∧
      switchNodeType env g path =
        ⟨[], Outcome.panic (PanicValue.text "unhandled default case")⟩) := by
  unfold switchNodeType
  by_cases hc : g.nodeType = "client"
  · cases hb : env.BootAgent (controllerOf g path none) <;> simp [hc, hb]
  · by_cases hs : g.nodeType = "server"
    · cases hb : env.BootAgent (controllerOf g path none)
      · cases hr : env.NewRPCClient "localhost:8400"
        · cases hf : env.ConfigureServer (controllerOf g path (some ⟨"localhost:8400"⟩)) <;>
            simp [hs, hb, hr, hf, Run.after]
        · simp [hs, hb, hr, Run.after]
      · simp [hs, hb]
    · simp [hc, hs]

theorem string_length_eq_zero (s : String) : s.length = 0 ↔ s = "" := by
  constructor
  · intro h
    have hd : s.data = [] := List.length_eq_zero.mp h
    exact String.ext hd
  · intro h
    subst h
    rfl

/-- A run that fails a check of lines 50-77. -/
theorem main_of_not_validated (env : Env) (Args : List String) (h : ¬ Validated env Args) :
    (main env Args).outcome = Outcome.exit 1 ∧
    controllerOps (main env Args).trace = [] ∧
    ∃ pre message, (main env Args).trace = pre ++ [Event.printUsage message] ∧
      ∀ e ∈ pre, e.op = none ∧ e.isUsage = false := by
  match Args with
  | [] => exact ⟨rfl, rfl, [], _, rfl, by simp⟩
  | [_] => exact ⟨rfl, rfl, [], _, rfl, by simp⟩
  | prog :: command :: arguments =>
    unfold Validated parsedGlobals at h
    simp only [List.drop_succ_cons, List.drop_zero, List.length_cons, List.get?_cons_succ,
      List.get?_cons_zero] at h
    unfold main
    by_cases hc : validCommand command = true
    · simp only [hc, Bool.not_true, Bool.false_eq_true, if_false]
      unfold afterParse
      cases hl : env.LookPath (Parse Globals.zero arguments).1.agentPath with
      | none =>
        exact ⟨rfl, rfl, [_, _], _, rfl, by simp [Event.op, Event.isUsage]⟩
      | some path =>
        by_cases hp : (Parse Globals.zero arguments).1.pidFile.length = 0
        · simp only [hp, if_true]
          exact ⟨rfl, rfl, [_, _], _, rfl, by simp [Event.op, Event.isUsage]⟩
        · simp only [hp, if_false]
          cases hs : env.Stat (Parse Globals.zero arguments).1.consulConfigDir with
          | some err =>
            exact ⟨rfl, rfl, [_, _, _], _, rfl, by simp [Event.op, Event.isUsage]⟩
          | none =>
            by_cases hm : (Parse Globals.zero arguments).1.expectedMembers.length = 0
            · simp only [hm, if_true]
              exact ⟨rfl, rfl, [_, _, _], _, rfl, by simp [Event.op, Event.isUsage]⟩
            · exfalso
              apply h
              refine ⟨by omega, ⟨command, rfl, hc⟩, ⟨path, hl⟩, ?_, hs, ?_⟩
              · intro h0
                exact hp ((string_length_eq_zero _).mpr h0)
              · intro h0
                exact hm (by rw [h0]; rfl)
    · simp only [Bool.not_eq_true] at hc
      simp only [hc, Bool.not_false, if_true]
      exact ⟨rfl, rfl, [], _, rfl, by simp⟩

/-- A run that passes the checks of lines 50-77: it goes on to `api.NewClient`
and, when that succeeds, to the `switch` statement. -/
theorem main_of_validated (env : Env) (Args : List String) (h : Validated env Args) :
    ∃ path, env.LookPath (parsedGlobals Args).agentPath = some path ∧
      main env Args = Run.after (validationEvents Args path)
        (match env.NewClient with
          | some err => ⟨[Event.NewClient (some err)], Outcome.panic (PanicValue.error err)⟩
          | none => Run.after [Event.NewClient none]
              (switchNodeType env (parsedGlobals Args) path)) := by
  obtain ⟨hlen, ⟨command, hcmd, hvalid⟩, ⟨path, hl⟩, hp, hs, hm⟩ := h
  refine ⟨path, hl, ?_⟩
  match Args with
  | [] => simp at hlen
  | [_] => simp at hlen
  | prog :: c :: arguments =>
    simp only [List.get?_cons_succ, List.get?_cons_zero, Option.some.injEq] at hcmd
    subst hcmd
    unfold parsedGlobals at hl hp hs hm
    simp only [List.drop_succ_cons, List.drop_zero] at hl hp hs hm
    have hp0 : ¬ (Parse Globals.zero arguments).1.pidFile.length = 0 := fun h0 =>
      hp ((string_length_eq_zero _).mp h0)
    have hm0 : ¬ (Parse Globals.zero arguments).1.expectedMembers.length = 0 := fun h0 =>
      hm (List.length_eq_zero.mp h0)
    unfold main afterParse validationEvents parsedGlobals
    simp only [hvalid, Bool.not_true, Bool.false_eq_true, if_false, hl, hp0, hs, hm0,
      List.drop_succ_cons, List.drop_zero]
    cases env.NewClient <;> rfl

/-- Every run passes the checks of lines 50-77 or fails one; a run that passes
them either panics on the API client or reaches the `switch` statement. -/
theorem main_cases (env : Env) (Args : List String) :
    ¬ Validated env Args ∨
    (Validated env Args ∧ ∃ path, env.LookPath (parsedGlobals Args).agentPath = some path ∧
      ((∃ err, env.NewClient = some err ∧
          main env Args = ⟨validationEvents Args path ++ [Event.NewClient (some err)],
            Outcome.panic (PanicValue.error err)⟩) ∨
        (env.NewClient = none ∧
          main env Args = Run.after (validationEvents Args path ++ [Event.NewClient none])
            (switchNodeType env (parsedGlobals Args) path)))) := by
  by_cases h : Validated env Args
  · right
    obtain ⟨path, hl, hm⟩ := main_of_validated env Args h
    refine ⟨h, path, hl, ?_⟩
    cases hn : env.NewClient with
    | none =>
      right
      rw [hn] at hm
      exact ⟨rfl, by rw [hm]; simp [Run.after]⟩
    | some err =>
      left
      rw [hn] at hm
      exact ⟨err, rfl, by rw [hm]; simp [Run.after]⟩
  · exact Or.inl h

theorem op_mem_controllerOps {t : List Event} {e : Event} {o : Op} (he : e ∈ t)
    (ho : e.op = some o) : o ∈ controllerOps t := by
  unfold controllerOps
  exact List.mem_filterMap.mpr ⟨e, he, ho⟩

/-! ## The claims -/

/-- C1: in every run of `main` (so in every run with node type "server"),
`ConfigureServer` is invoked only after `BootAgent` has been invoked and has
returned no error; and if `BootAgent` returns an error, `ConfigureServer` is
not invoked in that run. -/
theorem configureServer_only_after_bootAgent_ok (env : Env) (Args : List String) :
    (∀ pre post c r, (main env Args).trace = pre ++ Event.ConfigureServer c r :: post →
      ∃ c0, Event.BootAgent c0 none ∈ pre ∧ env.BootAgent c0 = none) ∧
    (∀ c0 err, Event.BootAgent c0 (some err) ∈ (main env Args).trace →
      env.BootAgent c0 = some err ∧
      ∀ c r, Event.ConfigureServer c r ∉ (main env Args).trace) := by
  rcases main_cases env Args with h | ⟨-, path, -, h | ⟨-, h⟩⟩
  · obtain ⟨-, hops, -⟩ := main_of_not_validated env Args h
    constructor
    · intro pre post c r ht
      have hm : Event.ConfigureServer c r ∈ (main env Args).trace := by
        rw [ht]; simp
      have := op_mem_controllerOps hm rfl
      rw [hops] at this
      simp at this
    · intro c0 err hm
      have := op_mem_controllerOps hm rfl
      rw [hops] at this
      simp at this
  · obtain ⟨err, -, hm⟩ := h
    rw [hm]
    constructor
    · intro pre post c r ht
      simp [validationEvents, List.cons_eq_append_iff] at ht
    · intro c0 e hmem
      simp [validationEvents] at hmem
  · rw [h]
    rcases switchNodeType_cases env (parsedGlobals Args) path with
      ⟨-, e, hb, hs⟩ | ⟨-, hb, hs⟩ | ⟨-, e, hb, hs⟩ | ⟨-, hb, e, hr, hs⟩ |
      ⟨-, hb, hr, e, hf, hs⟩ | ⟨-, hb, hr, hf, hs⟩ | ⟨-, -, hs⟩ <;>
    rw [hs] <;>
    constructor
    all_goals first
      | (intro pre post c r ht
         simp [Run.after, validationEvents, List.cons_eq_append_iff] at ht
         done)
      | (intro pre post c r ht
         simp only [Run.after, validationEvents, List.cons_eq_append_iff, List.cons_append,
           List.nil_append] at ht
         simp at ht
         obtain ⟨_, rfl, _, rfl, _, rfl, _, rfl, _, rfl, _, rfl, rfl, -, rfl⟩ := ht
         exact ⟨_, by simp, hb⟩)
      | (intro c0 err hmem
         simp [Run.after, validationEvents] at hmem
         done)
      | (intro c0 err hmem
         simp only [Run.after, validationEvents] at hmem
         simp at hmem
         obtain ⟨rfl, rfl⟩ := hmem
         exact ⟨hb, by simp [Run.after, validationEvents]⟩)

/-- The run of `serverArgs` when every call succeeds ends with `ConfigureServer`,
and `BootAgent` succeeded before it; when `BootAgent` fails there is no
`ConfigureServer`. -/
theorem configureServer_only_after_bootAgent_ok_witness :
    (∃ c0, Event.BootAgent c0 none ∈ (main Env.allOk serverArgs).trace.take 6 ∧
      Env.allOk.BootAgent c0 = none) ∧
    (Env.bootFails.BootAgent (controllerOf (parsedGlobals serverArgs) "/bin/consul" none) =
        some ⟨"cluster membership timeout"⟩ ∧
      ∀ c r, Event.ConfigureServer c r ∉ (main Env.bootFails serverArgs).trace) :=
  ⟨(configureServer_only_after_bootAgent_ok Env.allOk serverArgs).1
      ((main Env.allOk serverArgs).trace.take 6) []
      (controllerOf (parsedGlobals serverArgs) "/bin/consul" (some ⟨"localhost:8400"⟩)) none
      (by decide),
    (configureServer_only_after_bootAgent_ok Env.bootFails serverArgs).2
      (controllerOf (parsedGlobals serverArgs) "/bin/consul" none)
      ⟨"cluster membership timeout"⟩ (by decide)⟩

theorem validated_allOk_clientArgs : Validated Env.allOk clientArgs :=
  ⟨by decide, ⟨"start", rfl, by decide⟩, ⟨_, rfl⟩, by decide, rfl, by decide⟩

theorem validated_allOk_serverArgs : Validated Env.allOk serverArgs :=
  ⟨by decide, ⟨"start", rfl, by decide⟩, ⟨_, rfl⟩, by decide, rfl, by decide⟩

theorem validated_allOk_stopArgs : Validated Env.allOk stopArgs :=
  ⟨by decide, ⟨"stop", rfl, by decide⟩, ⟨_, rfl⟩, by decide, rfl, by decide⟩

theorem validated_allOk_noTypeArgs : Validated Env.allOk noTypeArgs :=
  ⟨by decide, ⟨"start", rfl, by decide⟩, ⟨_, rfl⟩, by decide, rfl, by decide⟩

theorem validated_clientFails_noTypeArgs : Validated Env.clientFails noTypeArgs :=
  ⟨by decide, ⟨"start", rfl, by decide⟩, ⟨_, rfl⟩, by decide, rfl, by decide⟩

/-- C2 (the code at the failing input): the command is only validated, never
dispatched on. A `stop` invocation runs exactly as the `start` invocation with
the same options, and the validated invocation `stopArgs` of a client node
invokes `BootAgent` and no `StopAgent`. -/
theorem stop_command_boots_agent :
    (∀ env prog arguments,
      main env (prog :: "stop" :: arguments) = main env (prog :: "start" :: arguments)) ∧
    Validated Env.allOk stopArgs ∧
    controllerOps (main Env.allOk stopArgs).trace = [Op.BootAgent] ∧
    Op.StopAgent ∉ controllerOps (main Env.allOk stopArgs).trace :=
  ⟨fun _ _ _ => rfl, validated_allOk_stopArgs, by decide, by decide⟩

/-- C3: for every validated invocation in which no call outside the file
returns an error, the controller operations of the run are exactly
`[BootAgent]` for node type "client" and exactly `[BootAgent, ConfigureServer]`
for node type "server". -/
theorem ops_selected_by_node_type (env : Env) (Args : List String)
    (hv : Validated env Args)
    (hok : ∀ e ∈ (main env Args).trace, e.failed = false) :
    ((parsedGlobals Args).nodeType = "client" →
      controllerOps (main env Args).trace = [Op.BootAgent]) ∧
    ((parsedGlobals Args).nodeType = "server" →
      controllerOps (main env Args).trace = [Op.BootAgent, Op.ConfigureServer]) := by
  rcases main_cases env Args with h | ⟨-, path, -, h | ⟨-, h⟩⟩
  · exact absurd hv h
  · obtain ⟨err, -, hm⟩ := h
    rw [hm] at hok
    have := hok (Event.NewClient (some err)) (by simp)
    simp [Event.failed] at this
  · rw [h] at hok ⊢
    rcases switchNodeType_cases env (parsedGlobals Args) path with
      ⟨hn, e, hb, hs⟩ | ⟨hn, hb, hs⟩ | ⟨hn, e, hb, hs⟩ | ⟨hn, hb, e, hr, hs⟩ |
      ⟨hn, hb, hr, e, hf, hs⟩ | ⟨hn, hb, hr, hf, hs⟩ | ⟨hn1, hn2, hs⟩ <;>
    rw [hs] at hok ⊢
    · simp [Run.after, validationEvents, Event.failed] at hok
    · simp [hn, Run.after, validationEvents, controllerOps, Event.op]
    · simp [Run.after, validationEvents, Event.failed] at hok
    · simp [Run.after, validationEvents, Event.failed] at hok
    · simp [Run.after, validationEvents, Event.failed] at hok
    · simp [hn, Run.after, validationEvents, controllerOps, Event.op]
    · exact ⟨fun h0 => absurd h0 hn1, fun h0 => absurd h0 hn2⟩

/-- With every call succeeding, `clientArgs` runs `[BootAgent]` and `serverArgs`
runs `[BootAgent, ConfigureServer]`. -/
theorem ops_selected_by_node_type_witness :
    controllerOps (main Env.allOk clientArgs).trace = [Op.BootAgent] ∧
    controllerOps (main Env.allOk serverArgs).trace = [Op.BootAgent, Op.ConfigureServer] :=
  ⟨(ops_selected_by_node_type Env.allOk clientArgs validated_allOk_clientArgs (by decide)).1
      (by decide),
    (ops_selected_by_node_type Env.allOk serverArgs validated_allOk_serverArgs (by decide)).2
      (by decide)⟩

/-- C4: when the expected member list is empty after flag parsing, `main`
ends in `os.Exit(1)`, the last thing it does is a call of `printUsageAndExit`,
and it invokes no controller operation, whatever the other arguments and the
environment are. -/
theorem no_expected_member_exits (env : Env) (Args : List String)
    (h : (parsedGlobals Args).expectedMembers = []) :
    (main env Args).outcome = Outcome.exit 1 ∧
    (∃ pre message, (main env Args).trace = pre ++ [Event.printUsage message]) ∧
    controllerOps (main env Args).trace = [] := by
  have hnv : ¬ Validated env Args := fun hv => hv.2.2.2.2.2 h
  obtain ⟨ho, hops, pre, message, ht, -⟩ := main_of_not_validated env Args hnv
  exact ⟨ho, ⟨pre, message, ht⟩, hops⟩

/-- The invocation `noMemberArgs` passes every other check and exits with status 1. -/
theorem no_expected_member_exits_witness :
    (parsedGlobals noMemberArgs).expectedMembers = [] ∧
    (main Env.allOk noMemberArgs).outcome = Outcome.exit 1 ∧
    (∃ pre message, (main Env.allOk noMemberArgs).trace = pre ++ [Event.printUsage message]) ∧
    controllerOps (main Env.allOk noMemberArgs).trace = [] :=
  ⟨by decide, no_expected_member_exits Env.allOk noMemberArgs (by decide)⟩

/-- C5: when `BootAgent` or `ConfigureServer` returns an error, `main` panics
with that error (it does not return and does not exit), and the failing call is
the last thing the run does: no controller operation follows it. -/
theorem controller_error_panics (env : Env) (Args : List String) (pre post : List Event)
    (c : Controller) (err : GoError)
    (h : (main env Args).trace = pre ++ Event.BootAgent c (some err) :: post ∨
      (main env Args).trace = pre ++ Event.ConfigureServer c (some err) :: post) :
    (main env Args).outcome = Outcome.panic (PanicValue.error err) ∧
    (main env Args).outcome ≠ Outcome.returned ∧
    post = [] := by
  have hmem : Event.BootAgent c (some err) ∈ (main env Args).trace ∨
      Event.ConfigureServer c (some err) ∈ (main env Args).trace := by
    rcases h with h | h
    · left; rw [h]; simp
    · right; rw [h]; simp
  rcases main_cases env Args with hv | ⟨-, path, -, hm | ⟨-, hm⟩⟩
  · obtain ⟨-, hops, -⟩ := main_of_not_validated env Args hv
    rcases hmem with hmem | hmem <;>
    · have := op_mem_controllerOps hmem rfl
      rw [hops] at this
      simp at this
  · obtain ⟨e, -, hm⟩ := hm
    rw [hm] at hmem
    simp [validationEvents] at hmem
  · rw [hm] at h ⊢
    rcases switchNodeType_cases env (parsedGlobals Args) path with
      ⟨-, e, hb, hs⟩ | ⟨-, hb, hs⟩ | ⟨-, e, hb, hs⟩ | ⟨-, hb, e, hr, hs⟩ |
      ⟨-, hb, hr, e, hf, hs⟩ | ⟨-, hb, hr, hf, hs⟩ | ⟨-, -, hs⟩ <;>
    rw [hs] at h ⊢ <;>
    simp only [Run.after, validationEvents, List.cons_eq_append_iff, List.cons_append,
      List.nil_append] at h ⊢ <;>
    simp at h ⊢ <;>
    first
      | (obtain ⟨_, rfl, _, rfl, _, rfl, _, rfl, rfl, ⟨rfl, rfl⟩, rfl⟩ := h
         simp)
      | (obtain ⟨_, rfl, _, rfl, _, rfl, _, rfl, _, rfl, _, rfl, rfl, ⟨rfl, rfl⟩, rfl⟩ := h
         simp)

/-- When `BootAgent` fails in the run of `serverArgs`, the run panics with its error. -/
theorem controller_error_panics_witness :
    (main Env.bootFails serverArgs).outcome =
        Outcome.panic (PanicValue.error ⟨"cluster membership timeout"⟩) ∧
    (main Env.bootFails serverArgs).outcome ≠ Outcome.returned ∧
    ([] : List Event) = [] :=
  controller_error_panics Env.bootFails serverArgs ((main Env.bootFails serverArgs).trace.take 4)
    [] (controllerOf (parsedGlobals serverArgs) "/bin/consul" none)
    ⟨"cluster membership timeout"⟩ (Or.inl (by decide))

/-- Every controller on which `main` invokes an operation is built by
`controllerOf` from the parsed variables. -/
theorem controllers_of_main (env : Env) (Args : List String) (c : Controller)
    (h : c ∈ controllers (main env Args).trace) :
    ∃ path rpc, c = controllerOf (parsedGlobals Args) path rpc := by
  rcases main_cases env Args with hv | ⟨-, path, -, hm | ⟨-, hm⟩⟩
  · obtain ⟨-, -, pre, message, ht, hpre⟩ := main_of_not_validated env Args hv
    rw [ht] at h
    simp only [controllers, List.mem_filterMap, List.mem_append, List.mem_singleton] at h
    obtain ⟨e, he | he, hc⟩ := h
    · have := (hpre e he).1
      cases e <;> simp [Event.op, Event.controller] at this hc
    · subst he
      simp [Event.controller] at hc
  · obtain ⟨e, -, hm⟩ := hm
    rw [hm] at h
    simp [controllers, validationEvents, Event.controller] at h
  · rw [hm] at h
    rcases switchNodeType_cases env (parsedGlobals Args) path with
      ⟨-, e, hb, hs⟩ | ⟨-, hb, hs⟩ | ⟨-, e, hb, hs⟩ | ⟨-, hb, e, hr, hs⟩ |
      ⟨-, hb, hr, e, hf, hs⟩ | ⟨-, hb, hr, hf, hs⟩ | ⟨-, -, hs⟩ <;>
    rw [hs] at h <;>
    simp [controllers, Run.after, validationEvents, Event.controller] at h
    all_goals first
      | exact ⟨_, _, h⟩
      | (rcases h with h | h <;> exact ⟨_, _, h⟩)

/-- C6 (as stated, refuted): no two invocations hand the controller different
`SSLDisabled` values, whatever the arguments and the environment are. -/
theorem sslDisabled_not_supplied :
    ¬ ∃ (env1 env2 : Env) (Args1 Args2 : List String) (c1 c2 : Controller),
      c1 ∈ controllers (main env1 Args1).trace ∧
      c2 ∈ controllers (main env2 Args2).trace ∧
      c1.SSLDisabled ≠ c2.SSLDisabled := by
  rintro ⟨env1, env2, Args1, Args2, c1, c2, h1, h2, hne⟩
  obtain ⟨p1, r1, rfl⟩ := controllers_of_main env1 Args1 c1 h1
  obtain ⟨p2, r2, rfl⟩ := controllers_of_main env2 Args2 c2 h2
  exact hne rfl

/-- C6 (amended): every controller on which `main` invokes an operation has
`SSLDisabled = false`: the value is the constant of line 104, and no argument
changes it. -/
theorem sslDisabled_always_false (env : Env) (Args : List String) (c : Controller)
    (h : c ∈ controllers (main env Args).trace) : c.SSLDisabled = false := by
  obtain ⟨path, rpc, rfl⟩ := controllers_of_main env Args c h
  rfl

/-- The controller of the run of `serverArgs` has `SSLDisabled = false`. -/
theorem sslDisabled_always_false_witness :
    controllerOf (parsedGlobals serverArgs) "/bin/consul" none ∈
        controllers (main Env.allOk serverArgs).trace ∧
    (controllerOf (parsedGlobals serverArgs) "/bin/consul" none).SSLDisabled = false :=
  ⟨by decide, sslDisabled_always_false Env.allOk serverArgs _ (by decide)⟩

/-- C8: `BootAgent` is invoked at most once per run; it is invoked exactly
when there is an argument after the program name, the command is valid, the
agent path resolves, the pid file path is not empty, the config directory
exists, an expected member is supplied, the API client is constructed without
error, and the node type is "client" or "server"; and when one of the first six
fails, `main` ends in `os.Exit(1)` and invokes no controller operation. -/
theorem bootAgent_iff_checks_pass (env : Env) (Args : List String) :
    (controllerOps (main env Args).trace).count Op.BootAgent ≤ 1 ∧
    (Op.BootAgent ∈ controllerOps (main env Args).trace ↔
      2 ≤ Args.length ∧
      (∃ command, Args.get? 1 = some command ∧ validCommand command = true) ∧
      (∃ path, env.LookPath (parsedGlobals Args).agentPath = some path) ∧
      (parsedGlobals Args).pidFile ≠ "" ∧
      env.Stat (parsedGlobals Args).consulConfigDir = none ∧
      (parsedGlobals Args).expectedMembers ≠ [] ∧
      env.NewClient = none ∧
      ((parsedGlobals Args).nodeType = "client" ∨ (parsedGlobals Args).nodeType = "server")) ∧
    (¬ (2 ≤ Args.length ∧
        (∃ command, Args.get? 1 = some command ∧ validCommand command = true) ∧
        (∃ path, env.LookPath (parsedGlobals Args).agentPath = some path) ∧
        (parsedGlobals Args).pidFile ≠ "" ∧
        env.Stat (parsedGlobals Args).consulConfigDir = none ∧
        (parsedGlobals Args).expectedMembers ≠ []) →
      (main env Args).outcome = Outcome.exit 1 ∧ controllerOps (main env Args).trace = []) := by
  have hsix : ∀ P : Prop, (2 ≤ Args.length ∧
      (∃ command, Args.get? 1 = some command ∧ validCommand command = true) ∧
      (∃ path, env.LookPath (parsedGlobals Args).agentPath = some path) ∧
      (parsedGlobals Args).pidFile ≠ "" ∧
      env.Stat (parsedGlobals Args).consulConfigDir = none ∧
      (parsedGlobals Args).expectedMembers ≠ [] ∧ P) ↔ (Validated env Args ∧ P) := by
    intro P
    unfold Validated
    tauto
  rw [hsix]
  refine ⟨?_, ?_, fun hnv => ?_⟩
  · rcases main_cases env Args with hv | ⟨-, path, -, hm | ⟨-, hm⟩⟩
    · rw [(main_of_not_validated env Args hv).2.1]
      simp
    · obtain ⟨e, -, hm⟩ := hm
      rw [hm]
      simp [controllerOps, validationEvents, Event.op]
    · rw [hm]
      rcases switchNodeType_cases env (parsedGlobals Args) path with
        ⟨-, e, hb, hs⟩ | ⟨-, hb, hs⟩ | ⟨-, e, hb, hs⟩ | ⟨-, hb, e, hr, hs⟩ |
        ⟨-, hb, hr, e, hf, hs⟩ | ⟨-, hb, hr, hf, hs⟩ | ⟨-, -, hs⟩ <;>
      rw [hs] <;>
      simp [controllerOps, Run.after, validationEvents, Event.op]
  · rcases main_cases env Args with hv | ⟨hv, path, -, hm | ⟨hn, hm⟩⟩
    · rw [(main_of_not_validated env Args hv).2.1]
      simp [hv]
    · obtain ⟨e, hn, hm⟩ := hm
      rw [hm]
      simp [controllerOps, validationEvents, Event.op, hn]
    · rw [hm]
      rcases switchNodeType_cases env (parsedGlobals Args) path with
        ⟨ht, e, hb, hs⟩ | ⟨ht, hb, hs⟩ | ⟨ht, e, hb, hs⟩ | ⟨ht, hb, e, hr, hs⟩ |
        ⟨ht, hb, hr, e, hf, hs⟩ | ⟨ht, hb, hr, hf, hs⟩ | ⟨ht1, ht2, hs⟩ <;>
      rw [hs] <;>
      simp [controllerOps, Run.after, validationEvents, Event.op, hv, hn, *]
  · have hv : ¬ Validated env Args := fun hv => hnv hv
    exact ⟨(main_of_not_validated env Args hv).1, (main_of_not_validated env Args hv).2.1⟩

/-- The run of `clientArgs` invokes `BootAgent`; `noMemberArgs`, which fails the
sixth check, exits with status 1 without a controller operation. -/
theorem bootAgent_iff_checks_pass_witness :
    Op.BootAgent ∈ controllerOps (main Env.allOk clientArgs).trace ∧
    ((main Env.allOk noMemberArgs).outcome = Outcome.exit 1 ∧
      controllerOps (main Env.allOk noMemberArgs).trace = []) :=
  ⟨(bootAgent_iff_checks_pass Env.allOk clientArgs).2.1.mpr
      ⟨by decide, ⟨"start", rfl, by decide⟩, ⟨_, rfl⟩, by decide, rfl, by decide, rfl,
        Or.inl (by decide)⟩,
    (bootAgent_iff_checks_pass Env.allOk noMemberArgs).2.2
      (fun h => h.2.2.2.2.2 (by decide))⟩

/-- C9 (as stated, refuted): `noTypeArgs` passes the six checks and gives no
node type, yet when `api.NewClient` returns an error the run panics with that
error and not with "unhandled default case". -/
theorem unhandled_node_type_needs_api_client :
    Validated Env.clientFails noTypeArgs ∧
    (parsedGlobals noTypeArgs).nodeType = "" ∧
    (main Env.clientFails noTypeArgs).outcome = Outcome.panic (PanicValue.error ⟨"api client"⟩) ∧
    (main Env.clientFails noTypeArgs).outcome ≠
      Outcome.panic (PanicValue.text "unhandled default case") :=
  ⟨validated_clientFails_noTypeArgs, by decide, by decide, by decide⟩

/-- C9 (amended): for every invocation that passes the six checks, whose API
client is constructed without error and whose node type is neither "client" nor
"server", `main` invokes no controller operation, does not call
`printUsageAndExit`, and panics with "unhandled default case". -/
theorem unhandled_node_type_panics (env : Env) (Args : List String)
    (hv : Validated env Args) (hn : env.NewClient = none)
    (hc : (parsedGlobals Args).nodeType ≠ "client")
    (hs : (parsedGlobals Args).nodeType ≠ "server") :
    controllerOps (main env Args).trace = [] ∧
    (∀ e ∈ (main env Args).trace, e.isUsage = false) ∧
    (main env Args).outcome = Outcome.panic (PanicValue.text "unhandled default case") ∧
    (main env Args).outcome ≠ Outcome.exit 1 := by
  rcases main_cases env Args with h | ⟨-, path, -, h | ⟨-, h⟩⟩
  · exact absurd hv h
  · obtain ⟨err, he, -⟩ := h
    rw [hn] at he
    cases he
  · rw [h]
    rcases switchNodeType_cases env (parsedGlobals Args) path with
      ⟨ht, -⟩ | ⟨ht, -⟩ | ⟨ht, -⟩ | ⟨ht, -⟩ | ⟨ht, -⟩ | ⟨ht, -⟩ | ⟨-, -, hr⟩
    · exact absurd ht hc
    · exact absurd ht hc
    · exact absurd ht hs
    · exact absurd ht hs
    · exact absurd ht hs
    · exact absurd ht hs
    · rw [hr]
      simp [Run.after, validationEvents, controllerOps, Event.op, Event.isUsage]

/-- The run of `noTypeArgs` when every call succeeds panics with "unhandled default case". -/
theorem unhandled_node_type_panics_witness :
    controllerOps (main Env.allOk noTypeArgs).trace = [] ∧
    (∀ e ∈ (main Env.allOk noTypeArgs).trace, e.isUsage = false) ∧
    (main Env.allOk noTypeArgs).outcome =
      Outcome.panic (PanicValue.text "unhandled default case") ∧
    (main Env.allOk noTypeArgs).outcome ≠ Outcome.exit 1 :=
  unhandled_node_type_panics Env.allOk noTypeArgs validated_allOk_noTypeArgs rfl
    (by decide) (by decide)

/-- C10: `validCommand c` is true exactly when `c` is "start" or "stop"; and
for every invocation whose command is neither, the whole run of `main` is one
call of `printUsageAndExit` ending in `os.Exit(1)`: no flag is parsed and no
controller operation is invoked. -/
theorem validCommand_iff_start_or_stop :
    (∀ c : String, validCommand c = true ↔ c = "start" ∨ c = "stop") ∧
    (∀ (env : Env) (prog c : String) (arguments : List String),
      ¬ (c = "start" ∨ c = "stop") →
      main env (prog :: c :: arguments) =
        ⟨[Event.printUsage (UsageMessage.invalidCommand c)], Outcome.exit 1⟩) := by
  have hiff : ∀ c : String, validCommand c = true ↔ c = "start" ∨ c = "stop" := by
    intro c
    simp [validCommand]
  refine ⟨hiff, ?_⟩
  intro env prog c arguments hc
  have hf : validCommand c = false := by
    cases hv : validCommand c
    · rfl
    · exact absurd ((hiff c).mp hv) hc
  simp [main, hf, printUsageAndExit]

/-- The command "restart" is rejected: the run is the usage message and `os.Exit(1)`. -/
theorem validCommand_iff_start_or_stop_witness :
    main Env.allOk ("confab" :: "restart" :: baseOptions) =
      ⟨[Event.printUsage (UsageMessage.invalidCommand "restart")], Outcome.exit 1⟩ :=
  validCommand_iff_start_or_stop.2 Env.allOk "confab" "restart" baseOptions (by decide)

/-! ## Flag parsing of well-formed options -/

end Confab
